import Mathlib

/-!
Shallow embedding of the Messager chat server (src/Real_server.py).

Strings from the Python source are modelled as lists of characters
(`Str := List Char`), because every string operation the server performs
(strip, lower, equality, lexicographic comparison, concatenation) must be
executable and kernel-reducible for concrete witnesses.

Python dictionaries (`conn_by_user`, `private_partner`, `mode_by_user`)
are modelled as association lists with dictionary update semantics
(replace in place, append if the key is new); the `usernames` set is
modelled as a duplicate-free list in iteration order.  Connection handles
(sockets) are modelled by natural-number identifiers; the outcome of a
`sendall` call on a connection is modelled by an environment function
`alive : Nat -> Bool` (true / false stands for a send that succeeds /
raises), so that delivery-failure behaviour is observable.

The server serializes shared-state access with a single non-reentrant
`threading.Lock`.  Operations that run inside one critical section are
modelled as atomic state transformers.  Where re-acquisition of the lock
by the same thread matters (the cleanup block of `Server.handle_client`
calls `Server.leave_private_if_any`, and both take the lock), the lock is
modelled explicitly: a function receives the flag `held`, and acquiring
the non-reentrant lock while it is already held by the same thread blocks
forever, which the model expresses by returning `none`.
-/

/-- Python strings, modelled as lists of characters. -/
abbrev Str := List Char

/-- Coerce a Lean string literal to the character-list model. -/
def str (s : String) : Str := s.data

/-- Python str.strip(): drop leading and trailing whitespace. -/
def stripStr (s : Str) : Str :=
  ((s.dropWhile Char.isWhitespace).reverse.dropWhile Char.isWhitespace).reverse

/-- Python str.lower() (restricted to the ASCII case mapping). -/
def toLowerStr (s : Str) : Str := s.map Char.toLower

/-- Lexicographic comparison of strings, as used by Python sorted(). -/
def strLe : Str → Str → Bool
  | [], _ => true
  | _ :: _, [] => false
  | a :: s, b :: t => if a = b then strLe s t else decide (a.toNat < b.toNat)

/-- Insert a string into an already sorted list of strings. -/
def insSorted (x : Str) : List Str → List Str
  | [] => [x]
  | y :: t => if strLe x y then x :: y :: t else y :: insSorted x t

/-- Python sorted() on a list of strings (insertion sort; order is all that matters). -/
def sortStrs : List Str → List Str
  | [] => []
  | x :: t => insSorted x (sortStrs t)

/-- Python dict lookup d.get(k): first matching key, none if absent. -/
def alGet : List (Str × α) → Str → Option α
  | [], _ => none
  | (k, v) :: t, k2 => if k = k2 then some v else alGet t k2

/-- Python dict assignment d[k] = v: replace in place, append if the key is new. -/
def alSet : List (Str × α) → Str → α → List (Str × α)
  | [], k, v => [(k, v)]
  | (k1, v1) :: t, k, v => if k1 = k then (k, v) :: t else (k1, v1) :: alSet t k v

/-- Python dict d.pop(k, None): remove the entry for k if present. -/
def alRemove : List (Str × α) → Str → List (Str × α)
  | [], _ => []
  | (k1, v1) :: t, k => if k1 = k then t else (k1, v1) :: alRemove t k

/-- Python set.add on the username set: no effect when already present. -/
def setAdd (l : List Str) (x : Str) : List Str :=
  if x ∈ l then l else l ++ [x]

/-- Python set.discard on the username set. -/
def setDiscard (l : List Str) (x : Str) : List Str := l.erase x

/-- Lookup in a dictionary of optional values, flattening the two sources of None
    that Python's d.get(k) conflates (absent key and stored None). -/
def pget (pp : List (Str × Option Str)) (u : Str) : Option Str :=
  match alGet pp u with
  | none => none
  | some v => v

/-- Shared server state touched by the directory and private-pairing claims:
    the fields `usernames`, `conn_by_user`, `private_partner` and
    `mode_by_user` of the Server object in src/Real_server.py. -/
structure PState where
  usernames : List Str
  conn_by_user : List (Str × Nat)
  private_partner : List (Str × Option Str)
  mode_by_user : List (Str × Str)
deriving DecidableEq

/-- The partner of a user: private_partner.get(username), with Python's
    None covering both an absent key and a stored None. -/
def PState.getPartner (s : PState) (u : Str) : Option Str :=
  pget s.private_partner u

/-- The fresh server state: no users registered. -/
def st0 : PState := ⟨[], [], [], []⟩

/-- Lines 140 to 155 of Server.handle_client: claim a username.  The name
    must be non-empty and not already taken; on success the four user maps
    are initialised exactly as the source does (partner None, mode menu). -/
def tryClaim (s : PState) (u : Str) (c : Nat) : Option PState :=
  if u = [] then none
  else if u ∈ s.usernames then none
  else some
    { usernames := setAdd s.usernames u
    , conn_by_user := alSet s.conn_by_user u c
    , private_partner := alSet s.private_partner u none
    , mode_by_user := alSet s.mode_by_user u (str "menu") }

/-- Line 293 of Server.handle_private_selection:
    sorted([u for u in self.usernames if u != username and self.conn_by_user.get(u)]). -/
def candidates (s : PState) (username : Str) : List Str :=
  sortStrs (s.usernames.filter
    (fun u => decide (u ≠ username) && (alGet s.conn_by_user u).isSome))

/-- Lines 316 to 327 of Server.handle_private_selection: validate a typed
    recipient and pair both sides.  Returns the new state and whether the
    pairing succeeded (true) or the choice was rejected as invalid or
    unavailable (false, state unchanged).  Note the source checks only that
    the choice is a live candidate; it never checks whether the choice
    already has a partner. -/
def privateSelect (s : PState) (username choice : Str) : PState × Bool :=
  if choice ∈ candidates s username ∧ (alGet s.conn_by_user choice).isSome then
    let pp := alSet (alSet s.private_partner username (some choice)) choice (some username)
    ({ s with private_partner := pp }, true)
  else (s, false)

/-- The notification line of Server.leave_private_if_any, line 341. -/
def notifLeft (username : Str) : Str :=
  str "[Private] " ++ username ++ str " left the private chat.\n"

/-- Lines 329 to 343, Server.leave_private_if_any.  The function starts by
    acquiring the non-reentrant server lock; `held` says whether the calling
    thread already holds it, in which case the acquisition blocks forever
    (modelled as none).  Otherwise: look up the partner (dict get, so an
    absent key and a stored None are both None, and Python's `if partner:`
    additionally treats the empty string as false); clear the caller's side;
    clear the partner's side only if it still points back; then, if the
    partner still has a connection, try to send the notification line,
    swallowing any send failure.  Returns the new state and the list of
    (connection, line) deliveries that succeeded. -/
def leavePrivateIfAny (held : Bool) (alive : Nat → Bool) (s : PState) (username : Str) :
    Option (PState × List (Nat × Str)) :=
  if held then none
  else some (
    match s.getPartner username with
    | none => (s, [])
    | some partner =>
      if partner = [] then (s, [])
      else
        let s1 : PState := { s with private_partner := alSet s.private_partner username none }
        let s2 : PState :=
          if s1.getPartner partner = some username then
            { s1 with private_partner := alSet s1.private_partner partner none }
          else s1
        match alGet s2.conn_by_user partner with
        | none => (s2, [])
        | some pc => if alive pc then (s2, [(pc, notifLeft username)]) else (s2, []))

/-- Lines 239 to 250 of Server.handle_client: the cleanup that the finally
    block runs on every exit path.  The block opens `with self.lock:` and,
    when a username was claimed (Python truthiness: non-None and non-empty),
    calls self.leave_private_if_any(username) while still holding the
    non-reentrant lock, then discards the name from every user map.  A
    result of none means the thread blocked forever inside the block. -/
def handleClientCleanup (alive : Nat → Bool) (s : PState) (username : Option Str) :
    Option PState :=
  match username with
  | none => some s
  | some u =>
    if u = [] then some s
    else
      match leavePrivateIfAny true alive s u with
      | none => none
      | some (s1, _) =>
        some { usernames := setDiscard s1.usernames u
             , conn_by_user := alRemove s1.conn_by_user u
             , private_partner := alRemove s1.private_partner u
             , mode_by_user := alRemove s1.mode_by_user u }

/-- Lines 221 to 224 of Server.handle_client, menu option 3: the list of
    online users, [u for u in self.usernames if self.conn_by_user.get(u)].
    No sort is applied; the order is the username set's iteration order. -/
def listOnline (s : PState) : List Str :=
  s.usernames.filter (fun u => (alGet s.conn_by_user u).isSome)

/-- Line 198 of Server.handle_client, the private-loop command test:
    msg == "/menu" or msg == "/exit" (exact, case-sensitive comparison). -/
def privateCmdCheck (msg : Str) : Bool :=
  msg = str "/menu" || msg = str "/exit"

/-- Line 273 of Server.handle_chat_room: msg.lower() == "/leave". -/
def chatLeaveCheck (msg : Str) : Bool :=
  toLowerStr msg = str "/leave"

/-- Lines 308 and 311 of Server.handle_private_selection: the typed choice
    is compared to "/menu" and "/exit" exactly (case-sensitive). -/
def selectionCmdCheck (choice : Str) : Bool :=
  choice = str "/menu" || choice = str "/exit"

/-- Line 373 of Server.wait_for_exit, the server console:
    cmd.strip().lower() == "exit". -/
def consoleExitCheck (cmd : Str) : Bool :=
  toLowerStr (stripStr cmd) = str "exit"

/-- The room-tagged broadcast line of ChatRoom.broadcast, line 81. -/
def roomMsg (roomId sender msg : Str) : Str :=
  str "[" ++ roomId ++ str "] " ++ sender ++ str ": " ++ msg ++ str "\n"

/-- The ChatRoom class of src/Real_server.py: an id, a membership set of
    (username, connection) pairs and a history list of (username, message). -/
structure ChatRoom where
  room_id : Str
  members : List (Str × Nat)
  history : List (Str × Str)
deriving DecidableEq

/-- Lines 74 to 83, ChatRoom.broadcast.  A blank (whitespace-only) message
    is ignored.  Otherwise (sender, message) is appended to the history,
    with no cap or trim anywhere, and the room-tagged line is sent to every
    member whose username differs from the sender; a send that raises is
    swallowed by `except Exception: pass` and the loop moves on, and the
    membership set is not modified.  Returns the new room and the list of
    (connection, line) deliveries that succeeded. -/
def ChatRoom.broadcast (alive : Nat → Bool) (r : ChatRoom) (sender message : Str) :
    ChatRoom × List (Nat × Str) :=
  if stripStr message = [] then (r, [])
  else
    ({ r with history := r.history ++ [(sender, message)] }
     , r.members.filterMap (fun m =>
        if m.1 ≠ sender ∧ alive m.2 = true then
          some (m.2, roomMsg r.room_id sender message)
        else none))

/-- Lines 85 and 86, ChatRoom.remove: members.discard((username, conn)). -/
def ChatRoom.remove (r : ChatRoom) (username : Str) (c : Nat) : ChatRoom :=
  { r with members := r.members.erase (username, c) }

/-- What one received line makes the chat-room loop do. -/
inductive ChatAction where
  | ignored
  | leftRoom
  | broadcasted
deriving DecidableEq

/-- Lines 264 to 279 of Server.handle_chat_room, one iteration of the loop
    on a received line: strip it; an empty result is ignored; if its lower
    case form is "/leave" the loop breaks back to the menu; otherwise the
    stripped text is broadcast to the room. -/
def chatRoomStep (alive : Nat → Bool) (r : ChatRoom) (username : Str) (rawData : Str) :
    ChatRoom × List (Nat × Str) × ChatAction :=
  let msg := stripStr rawData
  if msg = [] then (r, [], ChatAction.ignored)
  else if chatLeaveCheck msg then (r, [], ChatAction.leftRoom)
  else
    let b := ChatRoom.broadcast alive r username msg
    (b.1, b.2, ChatAction.broadcasted)

/-- Lines 290 to 327 of Server.handle_private_selection, the pass that
    consumes a typed candidate (reached from line 206 with
    typed_candidate = msg).  With no other user online it reports so and
    sets the mode back to menu; a typed /menu or /exit also sets the mode
    back to menu; otherwise the choice is validated by privateSelect, and
    on success both sides receive a pairing-confirmation line while on
    failure an error line is sent and the source loops back to an
    interactive prompt (further input, outside this one-pass model).
    In every case control returns to the private loop of handle_client,
    which continues with its next prompt. -/
def privateSelectionTyped (s : PState) (username : Str) (selfConn : Nat) (choice : Str) :
    PState × List (Nat × Str) :=
  if candidates s username = [] then
    ({ s with mode_by_user := alSet s.mode_by_user username (str "menu") }
     , [(selfConn, str "[Private] No other users online. Returning to menu.\n")])
  else if selectionCmdCheck choice then
    ({ s with mode_by_user := alSet s.mode_by_user username (str "menu") }, [])
  else
    let r := privateSelect s username choice
    if r.2 then
      (r.1
       , [(selfConn, str "[Private] You are now chatting with " ++ choice ++
            str ". Type /menu to leave.\n")] ++
         (match alGet s.conn_by_user choice with
          | some pc => [(pc, str "[Private] You are now chatting with " ++ username ++
              str ". Type /menu to leave.\n")]
          | none => []))
    else (s, [(selfConn, str "[Private] Invalid or unavailable user. Try again.\n")])

/-- Lines 195 to 220 of Server.handle_client, one iteration of the private
    loop on a received (already stripped) message.  First the exact-match
    test for /menu and /exit (leave private chat, back to the menu loop);
    then, if the user has no partner, the selection pass runs and the loop
    continues; if the user has a partner with a live directory entry, the
    line is forwarded to the partner and echoed to the sender; if the
    partner has no directory entry, the user is told the partner went
    offline, leave_private_if_any runs (the lock is not held here), and the
    loop breaks back to the menu.  Returns the new state, the deliveries,
    and whether control returned to the menu loop. -/
def privateStep (alive : Nat → Bool) (s : PState) (username : Str) (selfConn : Nat)
    (msg : Str) : PState × List (Nat × Str) × Bool :=
  if privateCmdCheck msg then
    match leavePrivateIfAny false alive s username with
    | none => (s, [], true)
    | some (s1, outs) =>
      (s1, (selfConn, str "[Private] Leaving private chat.\n") :: outs, true)
  else
    match s.getPartner username with
    | none =>
      let r := privateSelectionTyped s username selfConn msg
      (r.1, r.2, false)
    | some partner =>
      match alGet s.conn_by_user partner with
      | some pc =>
        (s, [(pc, str "[Private] " ++ username ++ str ": " ++ msg ++ str "\n"),
             (selfConn, str "[Private -> " ++ partner ++ str "] " ++ msg ++ str "\n")]
         , false)
      | none =>
        match leavePrivateIfAny false alive s username with
        | none => (s, [], true)
        | some (s1, outs) =>
          (s1, (selfConn, str "[Private] Partner went offline. Returning to menu.\n") :: outs
           , true)

/-- Sortedness of a list of strings under lexicographic order, executable. -/
def sortedStrs : List Str → Bool
  | [] => true
  | [_] => true
  | a :: b :: t => strLe a b && sortedStrs (b :: t)

/-- States of the shared directory and pairing maps reachable through the
    operations the source performs on them: the fresh state, a successful
    username claim, the pairing step of handle_private_selection run by a
    registered live user, and leave_private_if_any run without the lock
    held (the /menu, /exit and partner-offline paths).  The disconnect
    cleanup of handle_client is absent deliberately: it blocks forever on
    its re-acquisition of the non-reentrant lock before mutating anything
    (see handleClientCleanup), so it contributes no state change. -/
inductive Reachable : PState → Prop where
  | init : Reachable st0
  | claim (s : PState) (u : Str) (c : Nat) (s1 : PState) :
      Reachable s → tryClaim s u c = some s1 → Reachable s1
  | select (s : PState) (u choice : Str) :
      Reachable s → u ∈ s.usernames → (alGet s.conn_by_user u).isSome = true →
      Reachable (privateSelect s u choice).1
  | leave (s : PState) (alive : Nat → Bool) (u : Str) (s1 : PState)
      (outs : List (Nat × Str)) :
      Reachable s → leavePrivateIfAny false alive s u = some (s1, outs) → Reachable s1

/-- The same reachable states, restricted to the first-writer-wins pairing
    discipline the spec describes: a pairing step is taken only when both
    the requesting user and the chosen target are currently unpaired.  The
    source does not enforce the condition on the target; this relation
    names the executions in which no request ever targets an already
    paired user. -/
inductive ReachableFW : PState → Prop where
  | init : ReachableFW st0
  | claim (s : PState) (u : Str) (c : Nat) (s1 : PState) :
      ReachableFW s → tryClaim s u c = some s1 → ReachableFW s1
  | select (s : PState) (u choice : Str) :
      ReachableFW s → u ∈ s.usernames → (alGet s.conn_by_user u).isSome = true →
      s.getPartner u = none → s.getPartner choice = none →
      ReachableFW (privateSelect s u choice).1
  | leave (s : PState) (alive : Nat → Bool) (u : Str) (s1 : PState)
      (outs : List (Nat × Str)) :
      ReachableFW s → leavePrivateIfAny false alive s u = some (s1, outs) → ReachableFW s1

/-- Pairing symmetry: every partner edge is reciprocated. -/
def PairSym (s : PState) : Prop :=
  ∀ a b : Str, s.getPartner a = some b → s.getPartner b = some a

/-- Partner edges only connect registered names. -/
def PartnersReg (s : PState) : Prop :=
  ∀ a b : Str, s.getPartner a = some b → a ∈ s.usernames ∧ b ∈ s.usernames

/-- State after alice claims her name on connection 0. -/
def regA : PState :=
  ⟨[str "alice"], [(str "alice", 0)], [(str "alice", none)], [(str "alice", str "menu")]⟩

/-- State after alice (connection 0) and bob (connection 1) claim names. -/
def regAB : PState :=
  ⟨[str "alice", str "bob"], [(str "alice", 0), (str "bob", 1)],
   [(str "alice", none), (str "bob", none)],
   [(str "alice", str "menu"), (str "bob", str "menu")]⟩

/-- State after bob (connection 0) and then alice (connection 1) claim names. -/
def regBA : PState :=
  ⟨[str "bob", str "alice"], [(str "bob", 0), (str "alice", 1)],
   [(str "bob", none), (str "alice", none)],
   [(str "bob", str "menu"), (str "alice", str "menu")]⟩

/-- State after alice, bob and carol claim names on connections 0, 1, 2. -/
def regABC : PState :=
  ⟨[str "alice", str "bob", str "carol"],
   [(str "alice", 0), (str "bob", 1), (str "carol", 2)],
   [(str "alice", none), (str "bob", none), (str "carol", none)],
   [(str "alice", str "menu"), (str "bob", str "menu"), (str "carol", str "menu")]⟩

/-- State after alice pairs with bob (both registered, both unpaired). -/
def pairedAB : PState := (privateSelect regAB (str "alice") (str "bob")).1

/-- Three users online, alice paired with bob. -/
def midABC : PState := (privateSelect regABC (str "alice") (str "bob")).1

/-- Carol then selects bob, who is already paired with alice: the source
    pairs carol and bob anyway, leaving alice pointing at bob while bob
    points at carol. -/
def ovState : PState := (privateSelect midABC (str "carol") (str "bob")).1

/-- A room with sender sam on connection 0, bob on 1 and cat on 2. -/
def roomS : ChatRoom :=
  ⟨str "1", [(str "sam", 0), (str "bob", 1), (str "cat", 2)], []⟩

/-- A send environment in which only connection 1 raises on sendall. -/
def deadOne : Nat → Bool := fun c => decide (c ≠ 1)

/-- A send environment in which every sendall succeeds. -/
def allLive : Nat → Bool := fun _ => true

/-- Iterate n broadcasts of the same line into a room. -/
def pump (alive : Nat → Bool) (sender msg : Str) : Nat → ChatRoom → ChatRoom
  | 0, r => r
  | n + 1, r => pump alive sender msg n (ChatRoom.broadcast alive r sender msg).1

/-- A state in which alice still points at bob as partner although bob no
    longer resolves in the directory. -/
def lostB : PState :=
  ⟨[str "alice"], [(str "alice", 0)], [(str "alice", some (str "bob"))],
   [(str "alice", str "menu")]⟩

example : tryClaim st0 (str "alice") 0 = some regA := by decide

example : (privateSelect regAB (str "alice") (str "bob")).2 = true := by decide

example : pairedAB.getPartner (str "alice") = some (str "bob") := by decide

example : ovState.getPartner (str "alice") = some (str "bob") := by decide

example : ovState.getPartner (str "bob") = some (str "carol") := by decide

/-! Helper lemmas about the association-list and sorting primitives. -/

theorem alGet_alSet_self (l : List (Str × α)) (k : Str) (v : α) :
    alGet (alSet l k v) k = some v := by
  induction l with
  | nil => simp [alSet, alGet]
  | cons p t ih =>
    by_cases h : p.1 = k
    · simp [alSet, alGet, h]
    · simp [alSet, alGet, h, ih]

theorem alGet_alSet_other (l : List (Str × α)) (k a : Str) (v : α) (h : a ≠ k) :
    alGet (alSet l k v) a = alGet l a := by
  have hk : ¬ (k = a) := fun hh => h hh.symm
  induction l with
  | nil => simp [alSet, alGet, hk]
  | cons p t ih =>
    by_cases h1 : p.1 = k
    · have hp : ¬ (p.1 = a) := by rw [h1]; exact hk
      simp [alSet, alGet, h1, hk, hp]
    · by_cases h2 : p.1 = a <;> simp [alSet, alGet, h1, h2, h, ih]

theorem pget_set_self (pp : List (Str × Option Str)) (k : Str) (v : Option Str) :
    pget (alSet pp k v) k = v := by
  simp [pget, alGet_alSet_self]

theorem pget_set_other (pp : List (Str × Option Str)) (k a : Str) (v : Option Str)
    (h : a ≠ k) : pget (alSet pp k v) a = pget pp a := by
  simp [pget, alGet_alSet_other pp k a v h]

theorem mem_insSorted (x y : Str) (l : List Str) :
    y ∈ insSorted x l ↔ y = x ∨ y ∈ l := by
  induction l with
  | nil => simp [insSorted]
  | cons a t ih =>
    cases hsl : strLe x a
    · simp only [insSorted, hsl, Bool.false_eq_true, if_false, List.mem_cons, ih]
      tauto
    · simp [insSorted, hsl]

theorem mem_sortStrs (x : Str) (l : List Str) : x ∈ sortStrs l ↔ x ∈ l := by
  induction l with
  | nil => simp [sortStrs]
  | cons a t ih => simp [sortStrs, mem_insSorted, ih]

theorem mem_candidates (s : PState) (username u : Str) :
    u ∈ candidates s username ↔
      u ∈ s.usernames ∧ u ≠ username ∧ (alGet s.conn_by_user u).isSome = true := by
  simp [candidates, mem_sortStrs, List.mem_filter]
  try tauto

theorem setAdd_nodup (l : List Str) (x : Str) (h : l.Nodup) : (setAdd l x).Nodup := by
  unfold setAdd
  by_cases hx : x ∈ l
  · simpa [if_pos hx] using h
  · rw [if_neg hx]
    refine List.Nodup.append h (List.nodup_singleton x) ?_
    intro a ha hax
    simp at hax
    subst hax
    exact hx ha

theorem mem_setAdd (l : List Str) (x y : Str) : y ∈ setAdd l x ↔ y = x ∨ y ∈ l := by
  unfold setAdd
  by_cases hx : x ∈ l
  · simp only [if_pos hx]
    constructor
    · exact Or.inr
    · rintro (rfl | h2)
      · exact hx
      · exact h2
  · simp only [if_neg hx, List.mem_append, List.mem_singleton]
    tauto

theorem tryClaim_fields (s : PState) (u : Str) (c : Nat) (s1 : PState)
    (h : tryClaim s u c = some s1) :
    u ≠ [] ∧ u ∉ s.usernames ∧
    s1.usernames = setAdd s.usernames u ∧
    s1.conn_by_user = alSet s.conn_by_user u c ∧
    s1.private_partner = alSet s.private_partner u none := by
  unfold tryClaim at h
  by_cases h1 : u = []
  · simp [h1] at h
  · by_cases h2 : u ∈ s.usernames
    · simp [h1, h2] at h
    · simp [h1, h2] at h
      subst h
      exact ⟨h1, h2, rfl, rfl, rfl⟩

theorem getPartner_of_pp (s1 : PState) (pp : List (Str × Option Str))
    (h : s1.private_partner = pp) (a : Str) : s1.getPartner a = pget pp a := by
  rw [PState.getPartner, h]

theorem pairSym_claim (s : PState) (u : Str) (c : Nat) (s1 : PState)
    (h : tryClaim s u c = some s1) (hsym : PairSym s) (hreg : PartnersReg s) :
    PairSym s1 ∧ PartnersReg s1 := by
  obtain ⟨hne, hnotin, hun, hcn, hppn⟩ := tryClaim_fields s u c s1 h
  have hget : ∀ a : Str, s1.getPartner a = if a = u then none else s.getPartner a := by
    intro a
    rw [getPartner_of_pp s1 _ hppn a]
    by_cases ha : a = u
    · simp [ha, pget_set_self]
    · simp [ha, pget_set_other _ _ _ _ ha, PState.getPartner]
  constructor
  · intro a b hab
    rw [hget] at hab
    by_cases ha : a = u
    · simp [ha] at hab
    · rw [if_neg ha] at hab
      have hb : b ≠ u := by
        intro hbu
        exact hnotin (hbu ▸ (hreg a b hab).2)
      rw [hget, if_neg hb]
      exact hsym a b hab
  · intro a b hab
    rw [hget] at hab
    by_cases ha : a = u
    · simp [ha] at hab
    · rw [if_neg ha] at hab
      have hr := hreg a b hab
      rw [hun]
      exact ⟨(mem_setAdd _ _ _).2 (Or.inr hr.1), (mem_setAdd _ _ _).2 (Or.inr hr.2)⟩

theorem privateSelect_usernames (s : PState) (u choice : Str) :
    (privateSelect s u choice).1.usernames = s.usernames := by
  unfold privateSelect
  by_cases hcond : choice ∈ candidates s u ∧ (alGet s.conn_by_user choice).isSome <;>
    simp [hcond]

theorem privateSelect_conn (s : PState) (u choice : Str) :
    (privateSelect s u choice).1.conn_by_user = s.conn_by_user := by
  unfold privateSelect
  by_cases hcond : choice ∈ candidates s u ∧ (alGet s.conn_by_user choice).isSome <;>
    simp [hcond]

theorem privateSelect_pp_true (s : PState) (u choice : Str)
    (hcond : choice ∈ candidates s u ∧ (alGet s.conn_by_user choice).isSome) :
    (privateSelect s u choice).1.private_partner =
      alSet (alSet s.private_partner u (some choice)) choice (some u) := by
  unfold privateSelect
  simp [hcond]

theorem privateSelect_of_not (s : PState) (u choice : Str)
    (hcond : ¬ (choice ∈ candidates s u ∧ (alGet s.conn_by_user choice).isSome)) :
    privateSelect s u choice = (s, false) := by
  unfold privateSelect
  simp [hcond]

theorem pairSym_select (s : PState) (u choice : Str)
    (hu : u ∈ s.usernames)
    (hpu : s.getPartner u = none) (hpc : s.getPartner choice = none)
    (hsym : PairSym s) (hreg : PartnersReg s) :
    PairSym (privateSelect s u choice).1 ∧ PartnersReg (privateSelect s u choice).1 := by
  by_cases hcond : choice ∈ candidates s u ∧ (alGet s.conn_by_user choice).isSome
  · obtain ⟨hcu, hcne, _⟩ := (mem_candidates s u choice).1 hcond.1
    have huc : u ≠ choice := fun hh => hcne hh.symm
    have hget : ∀ a : Str, (privateSelect s u choice).1.getPartner a =
        if a = choice then some u else if a = u then some choice else s.getPartner a := by
      intro a
      rw [getPartner_of_pp _ _ (privateSelect_pp_true s u choice hcond) a]
      by_cases ha : a = choice
      · simp [ha, pget_set_self]
      · rw [pget_set_other _ _ _ _ ha, if_neg ha]
        by_cases ha2 : a = u
        · simp [ha2, pget_set_self]
        · rw [pget_set_other _ _ _ _ ha2, if_neg ha2, PState.getPartner]
    constructor
    · intro a b hab
      rw [hget] at hab
      by_cases ha : a = choice
      · rw [if_pos ha] at hab
        obtain rfl : u = b := by simpa using hab
        rw [hget, if_neg huc, if_pos rfl, ha]
      · rw [if_neg ha] at hab
        by_cases ha2 : a = u
        · rw [if_pos ha2] at hab
          obtain rfl : choice = b := by simpa using hab
          rw [hget, if_pos rfl, ha2]
        · rw [if_neg ha2] at hab
          have hbu : b ≠ u := by
            intro hh
            rw [hh] at hab
            have h2 := hsym a u hab
            rw [hpu] at h2
            exact Option.noConfusion h2
          have hbc : b ≠ choice := by
            intro hh
            rw [hh] at hab
            have := hsym a choice hab
            rw [hpc] at this
            exact Option.noConfusion this
          rw [hget, if_neg hbc, if_neg hbu]
          exact hsym a b hab
    · intro a b hab
      rw [hget] at hab
      rw [privateSelect_usernames]
      by_cases ha : a = choice
      · rw [if_pos ha] at hab
        obtain rfl : u = b := by simpa using hab
        exact ⟨ha ▸ hcu, hu⟩
      · rw [if_neg ha] at hab
        by_cases ha2 : a = u
        · rw [if_pos ha2] at hab
          obtain rfl : choice = b := by simpa using hab
          exact ⟨ha2 ▸ hu, hcu⟩
        · rw [if_neg ha2] at hab
          exact hreg a b hab
  · rw [privateSelect_of_not s u choice hcond]
    exact ⟨hsym, hreg⟩

theorem leavePrivate_none (alive : Nat → Bool) (s : PState) (u : Str)
    (hp : s.getPartner u = none) :
    leavePrivateIfAny false alive s u = some (s, []) := by
  unfold leavePrivateIfAny
  simp [hp]

theorem leavePrivate_empty (alive : Nat → Bool) (s : PState) (u : Str)
    (hp : s.getPartner u = some []) :
    leavePrivateIfAny false alive s u = some (s, []) := by
  unfold leavePrivateIfAny
  simp [hp]

theorem leavePrivate_main (alive : Nat → Bool) (s : PState) (u p : Str)
    (hp : s.getPartner u = some p) (hpe : p ≠ []) :
    leavePrivateIfAny false alive s u =
      some (PState.mk s.usernames s.conn_by_user
        (if pget (alSet s.private_partner u none) p = some u then
          alSet (alSet s.private_partner u none) p none
        else alSet s.private_partner u none) s.mode_by_user,
        match alGet s.conn_by_user p with
        | none => []
        | some pc => if alive pc then [(pc, notifLeft u)] else []) := by
  unfold leavePrivateIfAny
  simp only [Bool.false_eq_true, if_false, hp, hpe, Option.some.injEq]
  by_cases hg : pget (alSet s.private_partner u none) p = some u
  · simp only [PState.getPartner, hg, if_true, if_pos hg]
    cases hc : alGet s.conn_by_user p with
    | none => rfl
    | some pc =>
      by_cases ha : alive pc = true
      · simp [ha]
      · simp [ha]
  · simp only [PState.getPartner, hg, if_false, if_neg hg]
    cases hc : alGet s.conn_by_user p with
    | none => rfl
    | some pc =>
      by_cases ha : alive pc = true
      · simp [ha]
      · simp [ha]

theorem leavePrivate_preserve (alive : Nat → Bool) (s : PState) (u : Str)
    (s1 : PState) (outs : List (Nat × Str))
    (hl : leavePrivateIfAny false alive s u = some (s1, outs)) :
    s1.usernames = s.usernames ∧ s1.conn_by_user = s.conn_by_user ∧
    s1.mode_by_user = s.mode_by_user ∧
    (∀ a : Str, s1.getPartner a = s.getPartner a ∨ s1.getPartner a = none) ∧
    (PairSym s → PairSym s1) := by
  cases hp : s.getPartner u with
  | none =>
    rw [leavePrivate_none alive s u hp] at hl
    simp only [Option.some.injEq, Prod.mk.injEq] at hl
    obtain ⟨rfl, rfl⟩ := hl
    exact ⟨rfl, rfl, rfl, fun a => Or.inl rfl, id⟩
  | some p =>
    by_cases hpe : p = []
    · rw [hpe] at hp
      rw [leavePrivate_empty alive s u hp] at hl
      simp only [Option.some.injEq, Prod.mk.injEq] at hl
      obtain ⟨rfl, rfl⟩ := hl
      exact ⟨rfl, rfl, rfl, fun a => Or.inl rfl, id⟩
    · have heq := leavePrivate_main alive s u p hp hpe
      rw [heq] at hl
      simp only [Option.some.injEq, Prod.mk.injEq] at hl
      obtain ⟨hs1, rfl⟩ := hl
      subst hs1
      by_cases hg : pget (alSet s.private_partner u none) p = some u
      · rw [if_pos hg]
        have hget : ∀ a : Str, pget (alSet (alSet s.private_partner u none) p none) a =
            if a = p then none else if a = u then none else s.getPartner a := by
          intro a
          by_cases hap : a = p
          · rw [if_pos hap, hap, pget_set_self]
          · rw [if_neg hap, pget_set_other _ _ _ _ hap]
            by_cases hau : a = u
            · rw [if_pos hau, hau, pget_set_self]
            · rw [if_neg hau, pget_set_other _ _ _ _ hau, PState.getPartner]
        refine ⟨rfl, rfl, rfl, ?_, ?_⟩
        · intro a
          show pget (alSet (alSet s.private_partner u none) p none) a = _ ∨
            pget (alSet (alSet s.private_partner u none) p none) a = none
          rw [hget]
          by_cases hap : a = p
          · rw [if_pos hap]
            exact Or.inr rfl
          · rw [if_neg hap]
            by_cases hau : a = u
            · rw [if_pos hau]
              exact Or.inr rfl
            · rw [if_neg hau]
              exact Or.inl rfl
        · intro hsym a b hab
          have hab2 : pget (alSet (alSet s.private_partner u none) p none) a = some b := hab
          rw [hget] at hab2
          by_cases hap : a = p
          · rw [if_pos hap] at hab2
            exact Option.noConfusion hab2
          · rw [if_neg hap] at hab2
            by_cases hau : a = u
            · rw [if_pos hau] at hab2
              exact Option.noConfusion hab2
            · rw [if_neg hau] at hab2
              have hbu : b ≠ u := by
                intro hh
                rw [hh] at hab2
                have h2 := hsym a u hab2
                rw [hp] at h2
                have h3 : p = a := by simpa using h2
                exact hap h3.symm
              have hbp : b ≠ p := by
                intro hh
                rw [hh] at hab2
                have h2 := hsym a p hab2
                have h3 := hsym u p hp
                rw [h3] at h2
                have h4 : u = a := by simpa using h2
                exact hau h4.symm
              show pget (alSet (alSet s.private_partner u none) p none) b = some a
              rw [hget, if_neg hbp, if_neg hbu]
              exact hsym a b hab2
      · rw [if_neg hg]
        have hget : ∀ a : Str, pget (alSet s.private_partner u none) a =
            if a = u then none else s.getPartner a := by
          intro a
          by_cases hau : a = u
          · rw [if_pos hau, hau, pget_set_self]
          · rw [if_neg hau, pget_set_other _ _ _ _ hau, PState.getPartner]
        refine ⟨rfl, rfl, rfl, ?_, ?_⟩
        · intro a
          show pget (alSet s.private_partner u none) a = _ ∨
            pget (alSet s.private_partner u none) a = none
          rw [hget]
          by_cases hau : a = u
          · rw [if_pos hau]
            exact Or.inr rfl
          · rw [if_neg hau]
            exact Or.inl rfl
        · intro hsym
          have hpu2 : p = u := by
            by_contra hpu3
            apply hg
            rw [pget_set_other _ _ _ _ hpu3]
            exact hsym u p hp
          intro a b hab
          have hab2 : pget (alSet s.private_partner u none) a = some b := hab
          rw [hget] at hab2
          by_cases hau : a = u
          · rw [if_pos hau] at hab2
            exact Option.noConfusion hab2
          · rw [if_neg hau] at hab2
            have hbu : b ≠ u := by
              intro hh
              rw [hh] at hab2
              have h2 := hsym a u hab2
              rw [hp, hpu2] at h2
              have h3 : u = a := by simpa using h2
              exact hau h3.symm
            show pget (alSet s.private_partner u none) b = some a
            rw [hget, if_neg hbu]
            exact hsym a b hab2

theorem pairSym_st0 : PairSym st0 ∧ PartnersReg st0 := by
  constructor <;> intro a b hab <;> simp [PState.getPartner, pget, alGet, st0] at hab

theorem reachableFW_sym_reg (s : PState) (h : ReachableFW s) :
    PairSym s ∧ PartnersReg s := by
  induction h with
  | init => exact pairSym_st0
  | claim s u c s1 hr heq ih => exact pairSym_claim s u c s1 heq ih.1 ih.2
  | select s u choice hr hu hconn hpu hpc ih =>
    exact pairSym_select s u choice hu hpu hpc ih.1 ih.2
  | leave s alive u s1 outs hr heq ih =>
    have hpres := leavePrivate_preserve alive s u s1 outs heq
    refine ⟨hpres.2.2.2.2 ih.1, ?_⟩
    intro a b hab
    rcases hpres.2.2.2.1 a with hh | hh
    · rw [hh] at hab
      have hr2 := ih.2 a b hab
      rw [hpres.1]
      exact hr2
    · rw [hh] at hab
      exact Option.noConfusion hab

theorem reachable_nodup (s : PState) (h : Reachable s) : s.usernames.Nodup := by
  induction h with
  | init => exact List.nodup_nil
  | claim s u c s1 hr heq ih =>
    obtain ⟨_, _, hun, _, _⟩ := tryClaim_fields s u c s1 heq
    rw [hun]
    exact setAdd_nodup s.usernames u ih
  | select s u choice hr hu hconn ih =>
    rw [privateSelect_usernames]
    exact ih
  | leave s alive u s1 outs hr heq ih =>
    rw [(leavePrivate_preserve alive s u s1 outs heq).1]
    exact ih

theorem leavePrivate_unpairs (alive : Nat → Bool) (s : PState) (u p : Str)
    (hp : s.getPartner u = some p) (hpe : p ≠ []) (s1 : PState) (outs : List (Nat × Str))
    (hl : leavePrivateIfAny false alive s u = some (s1, outs)) :
    s1.getPartner u = none ∧ (s.getPartner p = some u → s1.getPartner p = none) := by
  have heq := leavePrivate_main alive s u p hp hpe
  rw [heq] at hl
  simp only [Option.some.injEq, Prod.mk.injEq] at hl
  obtain ⟨hs1, _⟩ := hl
  subst hs1
  by_cases hg : pget (alSet s.private_partner u none) p = some u
  · rw [if_pos hg]
    constructor
    · show pget (alSet (alSet s.private_partner u none) p none) u = none
      by_cases hup : u = p
      · rw [hup, pget_set_self]
      · rw [pget_set_other _ _ _ _ hup, pget_set_self]
    · intro _
      show pget (alSet (alSet s.private_partner u none) p none) p = none
      rw [pget_set_self]
  · rw [if_neg hg]
    constructor
    · show pget (alSet s.private_partner u none) u = none
      rw [pget_set_self]
    · intro hpu
      show pget (alSet s.private_partner u none) p = none
      by_cases hup : p = u
      · rw [hup, pget_set_self]
      · exfalso
        apply hg
        rw [pget_set_other _ _ _ _ hup]
        exact hpu

/-- Claim C1.  The claim states that after any session termination the
    cleanup leaves the name absent from the directory, from every room and
    from the pairing table.  The code cannot deliver this: the finally
    block of Server.handle_client (lines 239 to 254) acquires the
    non-reentrant server lock and then calls leave_private_if_any, which
    acquires the same lock again, so the thread blocks forever before any
    of the removals run.  This theorem evaluates the cleanup at concrete
    failing inputs: a registered user with no partner and a paired user,
    under environments where every send succeeds and where every send
    fails; in each case the cleanup never completes (result none) while
    the name is still registered. -/
theorem C1_cleanup_deadlocks :
    str "alice" ∈ regA.usernames ∧
    handleClientCleanup allLive regA (some (str "alice")) = none ∧
    handleClientCleanup (fun _ => false) regA (some (str "alice")) = none ∧
    str "alice" ∈ pairedAB.usernames ∧
    handleClientCleanup allLive pairedAB (some (str "alice")) = none := by
  decide

/-- Claim C2, counterexample.  A state in which alice points at bob while
    bob points at carol is reachable: alice, bob and carol register, alice
    pairs with bob, then carol selects bob, whose existing pairing the
    selection code never checks.  No teardown is in progress: the state is
    quiescent, reached by completed critical sections only. -/
theorem C2_symmetry_cex :
    Reachable ovState ∧
    ovState.getPartner (str "alice") = some (str "bob") ∧
    ovState.getPartner (str "bob") = some (str "carol") ∧
    str "carol" ≠ str "alice" := by
  refine ⟨?_, by decide, by decide, by decide⟩
  have h1 : Reachable regA :=
    Reachable.claim st0 (str "alice") 0 regA Reachable.init (by decide)
  have h2 : Reachable regAB :=
    Reachable.claim regA (str "bob") 1 regAB h1 (by decide)
  have h3 : Reachable regABC :=
    Reachable.claim regAB (str "carol") 2 regABC h2 (by decide)
  have h4 : Reachable midABC :=
    Reachable.select regABC (str "alice") (str "bob") h3 (by decide) (by decide)
  exact Reachable.select midABC (str "carol") (str "bob") h4 (by decide) (by decide)

/-- Claim C2, amended.  Pairing symmetry does hold on every reachable
    state of executions that obey the first-writer-wins discipline the
    spec describes, that is, in which no pairing request ever targets an
    already paired user: if the partner of A is B then the partner of B
    is A.  (The unrestricted system violates the claim, see the
    counterexample.) -/
theorem C2_symmetry_fw (s : PState) (h : ReachableFW s) : PairSym s :=
  (reachableFW_sym_reg s h).1

/-- Witness for C2_symmetry_fw at a concrete reachable state: alice and
    bob register and pair; symmetry gives that the partner of bob is
    alice. -/
theorem C2_symmetry_fw_witness :
    pairedAB.getPartner (str "bob") = some (str "alice") := by
  have h1 : ReachableFW regA :=
    ReachableFW.claim st0 (str "alice") 0 regA ReachableFW.init (by decide)
  have h2 : ReachableFW regAB :=
    ReachableFW.claim regA (str "bob") 1 regAB h1 (by decide)
  have h3 : ReachableFW pairedAB :=
    ReachableFW.select regAB (str "alice") (str "bob") h2 (by decide) (by decide)
      (by decide) (by decide)
  exact C2_symmetry_fw pairedAB h3 (str "alice") (str "bob") (by decide)

/-- Claim C3, counterexample.  bob is online and already paired with
    alice, yet a pairing request from carol for bob succeeds and silently
    overrides the side of bob (the validation at lines 316 to 327 checks
    only that the choice is a live candidate, never its pairing state). -/
theorem C3_first_writer_cex :
    midABC.getPartner (str "bob") = some (str "alice") ∧
    (alGet midABC.conn_by_user (str "bob")).isSome = true ∧
    (privateSelect midABC (str "carol") (str "bob")).2 = true ∧
    (privateSelect midABC (str "carol") (str "bob")).1.getPartner (str "bob") =
      some (str "carol") := by
  decide

/-- Claim C3, amended.  A pairing request from u for choice fails with no
    state change exactly when choice does not resolve as an online other
    user (unregistered, no connection entry, or u itself); when choice is
    a registered online user other than u the request always succeeds and
    sets both directions, even if choice already had a partner (last
    writer wins rather than first writer wins). -/
theorem C3_request_pair (s : PState) (u choice : Str) :
    ((choice ∉ s.usernames ∨ alGet s.conn_by_user choice = none ∨ choice = u) →
      privateSelect s u choice = (s, false)) ∧
    ((choice ∈ s.usernames ∧ (alGet s.conn_by_user choice).isSome = true ∧ choice ≠ u) →
      (privateSelect s u choice).2 = true ∧
      (privateSelect s u choice).1.getPartner choice = some u ∧
      (privateSelect s u choice).1.getPartner u = some choice) := by
  constructor
  · intro hfail
    apply privateSelect_of_not
    intro hcond
    obtain ⟨hmem, hne, hsome⟩ := (mem_candidates s u choice).1 hcond.1
    rcases hfail with hf | hf | hf
    · exact hf hmem
    · rw [hf] at hsome
      simp at hsome
    · exact hne hf
  · intro hok
    obtain ⟨hmem, hsome, hne⟩ := hok
    have hcond : choice ∈ candidates s u ∧ (alGet s.conn_by_user choice).isSome := by
      exact ⟨(mem_candidates s u choice).2 ⟨hmem, hne, hsome⟩, hsome⟩
    refine ⟨?_, ?_, ?_⟩
    · unfold privateSelect
      simp [hcond]
    · rw [getPartner_of_pp _ _ (privateSelect_pp_true s u choice hcond), pget_set_self]
    · rw [getPartner_of_pp _ _ (privateSelect_pp_true s u choice hcond)]
      have hne2 : u ≠ choice := fun hh => hne hh.symm
      rw [pget_set_other _ _ _ _ hne2, pget_set_self]

/-- Witness for C3_request_pair: in the two-user state, a request for an
    absent name fails with no state change, and a request from alice for
    bob succeeds. -/
theorem C3_request_pair_witness :
    privateSelect regAB (str "alice") (str "zed") = (regAB, false) ∧
    (privateSelect regAB (str "alice") (str "bob")).2 = true := by
  constructor
  · exact (C3_request_pair regAB (str "alice") (str "zed")).1 (Or.inl (by decide))
  · exact ((C3_request_pair regAB (str "alice") (str "bob")).2 (by decide)).1

theorem pump_history_len (alive : Nat → Bool) (sender msg : Str)
    (h : stripStr msg ≠ []) (n : Nat) (r : ChatRoom) :
    (pump alive sender msg n r).history.length = r.history.length + n := by
  induction n generalizing r with
  | zero => simp [pump]
  | succ n ih =>
    rw [pump, ih]
    unfold ChatRoom.broadcast
    rw [if_neg h]
    simp only [List.length_append, List.length_singleton]
    omega

/-- Claim C4, counterexample.  ChatRoom.broadcast appends to the history
    with no cap or trim anywhere in the class, so after 1001 non-blank
    broadcasts into an initially empty history the room stores 1001
    entries, exceeding the cap of 1000 the claim names. -/
theorem C4_history_cap_cex :
    (pump allLive (str "sam") (str "hi") 1001 roomS).history.length = 1001 ∧
    1000 < (pump allLive (str "sam") (str "hi") 1001 roomS).history.length := by
  have h := pump_history_len allLive (str "sam") (str "hi") (by decide) 1001 roomS
  have h0 : roomS.history.length = 0 := by decide
  rw [h0] at h
  omega

/-- Claim C4, amended.  Each broadcast of non-blank text appends
    (sender, text) to the room history and discards nothing: the history
    is the old history plus the new entry, so it grows without bound and
    no configured cap exists. -/
theorem C4_broadcast_appends (alive : Nat → Bool) (r : ChatRoom) (sender msg : Str)
    (h : stripStr msg ≠ []) :
    (ChatRoom.broadcast alive r sender msg).1.history = r.history ++ [(sender, msg)] := by
  unfold ChatRoom.broadcast
  rw [if_neg h]

/-- Witness for C4_broadcast_appends at a concrete room and message. -/
theorem C4_broadcast_appends_witness :
    (ChatRoom.broadcast allLive roomS (str "sam") (str "hi")).1.history =
      roomS.history ++ [(str "sam", str "hi")] :=
  C4_broadcast_appends allLive roomS (str "sam") (str "hi") (by decide)

/-- Claim C5, counterexample.  In a room with sender sam, member bob on a
    connection whose sends fail, and member cat, a broadcast by sam is
    still delivered to cat (delivery continues) and nothing is delivered
    to bob, but bob is NOT removed from the membership: the except branch
    at lines 82 and 83 only passes, and ChatRoom.broadcast never touches
    the members set.  The claim that the failing member is removed is
    false. -/
theorem C5_no_removal_cex :
    (ChatRoom.broadcast deadOne roomS (str "sam") (str "hi")).1.members = roomS.members ∧
    (str "bob", 1) ∈ (ChatRoom.broadcast deadOne roomS (str "sam") (str "hi")).1.members ∧
    (2, roomMsg (str "1") (str "sam") (str "hi")) ∈
      (ChatRoom.broadcast deadOne roomS (str "sam") (str "hi")).2 ∧
    (1, roomMsg (str "1") (str "sam") (str "hi")) ∉
      (ChatRoom.broadcast deadOne roomS (str "sam") (str "hi")).2 := by
  decide

/-- Claim C5, amended.  A per-member send failure during a room broadcast
    is caught, does not abort delivery to the remaining members, and is
    not surfaced to the sender; however the failing member is not removed:
    the membership set is unchanged by every broadcast.  Formally: the
    members are preserved; every live non-sender member receives the line
    regardless of other members' failures; and every delivery goes to a
    live non-sender member's connection. -/
theorem C5_failure_swallowed (alive : Nat → Bool) (r : ChatRoom) (sender msg : Str) :
    (ChatRoom.broadcast alive r sender msg).1.members = r.members ∧
    (∀ u : Str, ∀ c : Nat, (u, c) ∈ r.members → u ≠ sender → alive c = true →
      stripStr msg ≠ [] →
      (c, roomMsg r.room_id sender msg) ∈ (ChatRoom.broadcast alive r sender msg).2) ∧
    (∀ d ∈ (ChatRoom.broadcast alive r sender msg).2,
      ∃ u : Str, (u, d.1) ∈ r.members ∧ u ≠ sender ∧ alive d.1 = true) := by
  unfold ChatRoom.broadcast
  by_cases hstrip : stripStr msg = []
  · rw [if_pos hstrip]
    refine ⟨rfl, ?_, ?_⟩
    · intro u c _ _ _ hmsg
      exact absurd hstrip hmsg
    · intro d hd
      simp at hd
  · rw [if_neg hstrip]
    refine ⟨rfl, ?_, ?_⟩
    · intro u c hmem hne halive _
      apply List.mem_filterMap.2
      refine ⟨(u, c), hmem, ?_⟩
      rw [if_pos ⟨hne, halive⟩]
    · intro d hd
      obtain ⟨m, hm, hf⟩ := List.mem_filterMap.1 hd
      by_cases hcond : m.1 ≠ sender ∧ alive m.2 = true
      · rw [if_pos hcond] at hf
        have hd2 := Option.some.inj hf
        refine ⟨m.1, ?_, hcond.1, ?_⟩
        · rw [← hd2]
          exact hm
        · rw [← hd2]
          exact hcond.2
      · rw [if_neg hcond] at hf
        exact Option.noConfusion hf

/-- Witness for C5_failure_swallowed: with bob's connection failing,
    membership is unchanged and cat still receives sam's line. -/
theorem C5_failure_swallowed_witness :
    (ChatRoom.broadcast deadOne roomS (str "sam") (str "hi")).1.members = roomS.members ∧
    (2, roomMsg roomS.room_id (str "sam") (str "hi")) ∈
      (ChatRoom.broadcast deadOne roomS (str "sam") (str "hi")).2 := by
  refine ⟨(C5_failure_swallowed deadOne roomS (str "sam") (str "hi")).1, ?_⟩
  exact (C5_failure_swallowed deadOne roomS (str "sam") (str "hi")).2.1
    (str "cat") 2 (by decide) (by decide) (by decide) (by decide)

/-- Claim C6.  For a broadcast of non-blank text by sender S: every member
    other than S with a working connection receives exactly the line
    [roomId] S: text (with trailing newline), and every delivery of the
    broadcast goes to a member other than S, so S never receives its own
    message back. -/
theorem C6_broadcast_exclusion (alive : Nat → Bool) (r : ChatRoom) (sender msg : Str)
    (h : stripStr msg ≠ []) :
    (∀ u : Str, ∀ c : Nat, (u, c) ∈ r.members → u ≠ sender → alive c = true →
      (c, roomMsg r.room_id sender msg) ∈ (ChatRoom.broadcast alive r sender msg).2) ∧
    (∀ d ∈ (ChatRoom.broadcast alive r sender msg).2,
      ∃ u : Str, ∃ c : Nat, (u, c) ∈ r.members ∧ u ≠ sender ∧
        d = (c, roomMsg r.room_id sender msg)) := by
  unfold ChatRoom.broadcast
  rw [if_neg h]
  constructor
  · intro u c hmem hne halive
    apply List.mem_filterMap.2
    refine ⟨(u, c), hmem, ?_⟩
    rw [if_pos ⟨hne, halive⟩]
  · intro d hd
    obtain ⟨m, hm, hf⟩ := List.mem_filterMap.1 hd
    by_cases hcond : m.1 ≠ sender ∧ alive m.2 = true
    · rw [if_pos hcond] at hf
      exact ⟨m.1, m.2, hm, hcond.1, (Option.some.inj hf).symm⟩
    · rw [if_neg hcond] at hf
      exact Option.noConfusion hf

/-- Witness for C6_broadcast_exclusion: with all sends working, bob
    receives sam's line in room 1. -/
theorem C6_broadcast_exclusion_witness :
    (1, roomMsg roomS.room_id (str "sam") (str "hi")) ∈
      (ChatRoom.broadcast allLive roomS (str "sam") (str "hi")).2 :=
  (C6_broadcast_exclusion allLive roomS (str "sam") (str "hi") (by decide)).1
    (str "bob") 1 (by decide) (by decide) (by decide)

/-- Claim C7.  When a user in private mode has a partner that no longer
    resolves in the directory, the next non-command line leads to the
    partner-offline branch: the line is not forwarded (the only output is
    the offline notice to the user's own connection), the user is
    unpaired on their own side, the partner's reciprocal entry is cleared
    when it still points back (the guard of leave_private_if_any), and
    control returns to the menu loop. -/
theorem C7_partner_offline (alive : Nat → Bool) (s : PState) (u p : Str) (c : Nat)
    (msg : Str) (hcmd : privateCmdCheck msg = false)
    (hp : s.getPartner u = some p) (hpe : p ≠ [])
    (hoff : alGet s.conn_by_user p = none) :
    (privateStep alive s u c msg).2.2 = true ∧
    (privateStep alive s u c msg).2.1 =
      [(c, str "[Private] Partner went offline. Returning to menu.\n")] ∧
    (privateStep alive s u c msg).1.getPartner u = none ∧
    (s.getPartner p = some u → (privateStep alive s u c msg).1.getPartner p = none) := by
  have heq := leavePrivate_main alive s u p hp hpe
  have heq2 : leavePrivateIfAny false alive s u =
      some (PState.mk s.usernames s.conn_by_user
        (if pget (alSet s.private_partner u none) p = some u then
          alSet (alSet s.private_partner u none) p none
        else alSet s.private_partner u none) s.mode_by_user, []) := by
    rw [heq, hoff]
  have hstep : privateStep alive s u c msg =
      (PState.mk s.usernames s.conn_by_user
        (if pget (alSet s.private_partner u none) p = some u then
          alSet (alSet s.private_partner u none) p none
        else alSet s.private_partner u none) s.mode_by_user,
       [(c, str "[Private] Partner went offline. Returning to menu.\n")], true) := by
    unfold privateStep
    simp only [hcmd, Bool.false_eq_true, if_false, hp, hoff, heq2]
  have hun := leavePrivate_unpairs alive s u p hp hpe _ _ heq2
  rw [hstep]
  exact ⟨rfl, rfl, hun.1, hun.2⟩

/-- Witness for C7_partner_offline: alice is paired with bob, bob has no
    directory entry; alice's next line triggers the offline notice, the
    unpairing and the return to the menu. -/
theorem C7_partner_offline_witness :
    (privateStep allLive lostB (str "alice") 0 (str "hey")).2.2 = true ∧
    (privateStep allLive lostB (str "alice") 0 (str "hey")).2.1 =
      [(0, str "[Private] Partner went offline. Returning to menu.\n")] ∧
    (privateStep allLive lostB (str "alice") 0 (str "hey")).1.getPartner (str "alice") =
      none := by
  have h := C7_partner_offline allLive lostB (str "alice") (str "bob") 0 (str "hey")
    (by decide) (by decide) (by decide) (by decide)
  exact ⟨h.1, h.2.1, h.2.2.1⟩

/-- Claim C8, counterexample.  The list-online branch applies no sort to
    the username set (unlike the private-selection branch, which sorts its
    candidate list): after bob registers before alice the snapshot comes
    out in set order, bob before alice, which is not lexicographically
    sorted, so the output is not ordered by a stable sort as claimed. -/
theorem C8_sorted_cex :
    Reachable regBA ∧
    listOnline regBA = [str "bob", str "alice"] ∧
    sortedStrs (listOnline regBA) = false ∧
    sortStrs (listOnline regBA) ≠ listOnline regBA := by
  refine ⟨?_, by decide, by decide, by decide⟩
  have h1 : Reachable (PState.mk [str "bob"] [(str "bob", 0)] [(str "bob", none)]
      [(str "bob", str "menu")]) :=
    Reachable.claim st0 (str "bob") 0 _ Reachable.init (by decide)
  exact Reachable.claim _ (str "alice") 1 regBA h1 (by decide)

/-- Claim C8, amended.  The snapshot of online users never contains
    duplicates (the username set admits each name once, and the listing
    filters it), but it is returned in the set's iteration order with no
    sort applied, so the lexicographic-order half of the claim fails (see
    the counterexample). -/
theorem C8_no_duplicates (s : PState) (h : Reachable s) : (listOnline s).Nodup := by
  unfold listOnline
  exact List.Nodup.filter _ (reachable_nodup s h)

/-- Witness for C8_no_duplicates at the concrete two-user reachable
    state. -/
theorem C8_no_duplicates_witness : (listOnline regBA).Nodup := by
  apply C8_no_duplicates
  have h1 : Reachable (PState.mk [str "bob"] [(str "bob", 0)] [(str "bob", none)]
      [(str "bob", str "menu")]) :=
    Reachable.claim st0 (str "bob") 0 _ Reachable.init (by decide)
  exact Reachable.claim _ (str "alice") 1 regBA h1 (by decide)

/-- Claim C9, counterexample.  The private-loop command test compares the
    received line to "/menu" and "/exit" exactly (line 198), so the upper
    case form /MENU does not trigger the leave transition: with alice
    paired to bob, "/menu" leaves private chat (back to menu) while
    "/MENU" is forwarded to bob as an ordinary message and alice stays
    paired.  The claim that every control word is recognized
    case-insensitively is false. -/
theorem C9_case_insensitive_cex :
    privateCmdCheck (str "/menu") = true ∧
    privateCmdCheck (str "/MENU") = false ∧
    toLowerStr (str "/MENU") = str "/menu" ∧
    (privateStep allLive pairedAB (str "alice") 0 (str "/menu")).2.2 = true ∧
    (privateStep allLive pairedAB (str "alice") 0 (str "/MENU")).2.2 = false ∧
    (privateStep allLive pairedAB (str "alice") 0 (str "/MENU")).1.getPartner
      (str "alice") = some (str "bob") ∧
    (privateStep allLive pairedAB (str "alice") 0 (str "/MENU")).2.1 =
      [(1, str "[Private] alice: /MENU\n"), (0, str "[Private -> bob] /MENU\n")] := by
  decide

/-- Claim C9, amended.  Only /leave in the chat room (compared through
    msg.lower()) and the server-console exit are case-insensitive; /menu
    and /exit in the private loop and in the recipient selection are
    matched exactly and reject any other casing; quit is not a recognized
    control word of the server in any phase (the client, not the server,
    interprets exit and quit). -/
theorem C9_control_words :
    chatLeaveCheck (str "/leave") = true ∧
    chatLeaveCheck (str "/LEAVE") = true ∧
    chatLeaveCheck (str "/LeAvE") = true ∧
    consoleExitCheck (str "exit") = true ∧
    consoleExitCheck (str "EXIT") = true ∧
    consoleExitCheck (str " Exit ") = true ∧
    privateCmdCheck (str "/menu") = true ∧
    privateCmdCheck (str "/exit") = true ∧
    privateCmdCheck (str "/Menu") = false ∧
    privateCmdCheck (str "/EXIT") = false ∧
    selectionCmdCheck (str "/menu") = true ∧
    selectionCmdCheck (str "/MENU") = false ∧
    privateCmdCheck (str "quit") = false ∧
    chatLeaveCheck (str "quit") = false ∧
    selectionCmdCheck (str "quit") = false ∧
    (chatRoomStep allLive roomS (str "sam") (str "/LEAVE")).2.2 = ChatAction.leftRoom ∧
    (chatRoomStep allLive roomS (str "sam") (str "/leave")).2.2 = ChatAction.leftRoom := by
  decide

/-- Claim C10.  When leave_private_if_any runs for a user u with an
    active partner p that still has a directory entry pc, the teardown
    state is the same whatever the send environment (a send failure does
    not affect it), u is unpaired, and the notification line
    [Private] u left the private chat. is delivered to pc exactly when
    the send succeeds; a failing send is swallowed and produces no
    delivery. -/
theorem C10_unpair_notifies (alive alive2 : Nat → Bool) (s : PState) (u p : Str)
    (pc : Nat) (hp : s.getPartner u = some p) (hpe : p ≠ [])
    (hconn : alGet s.conn_by_user p = some pc) :
    ∃ s1 : PState,
      (alive pc = true →
        leavePrivateIfAny false alive s u = some (s1, [(pc, notifLeft u)])) ∧
      (alive pc = false →
        leavePrivateIfAny false alive s u = some (s1, [])) ∧
      (∃ outs2, leavePrivateIfAny false alive2 s u = some (s1, outs2)) ∧
      s1.getPartner u = none := by
  refine ⟨PState.mk s.usernames s.conn_by_user
    (if pget (alSet s.private_partner u none) p = some u then
      alSet (alSet s.private_partner u none) p none
    else alSet s.private_partner u none) s.mode_by_user, ?_, ?_, ?_, ?_⟩
  · intro ha
    rw [leavePrivate_main alive s u p hp hpe, hconn]
    simp [ha]
  · intro ha
    rw [leavePrivate_main alive s u p hp hpe, hconn]
    simp [ha]
  · refine ⟨_, leavePrivate_main alive2 s u p hp hpe⟩
  · exact (leavePrivate_unpairs alive2 s u p hp hpe _ _
      (leavePrivate_main alive2 s u p hp hpe)).1

/-- Witness for C10_unpair_notifies: alice and bob are paired and bob is
    online on connection 1; with working sends the teardown delivers the
    notification line to bob and leaves alice unpaired. -/
theorem C10_unpair_notifies_witness :
    ∃ s1 : PState,
      leavePrivateIfAny false allLive pairedAB (str "alice") =
        some (s1, [(1, notifLeft (str "alice"))]) ∧
      s1.getPartner (str "alice") = none := by
  obtain ⟨s1, h1, _, _, h4⟩ := C10_unpair_notifies allLive deadOne pairedAB
    (str "alice") (str "bob") 1 (by decide) (by decide) (by decide)
  exact ⟨s1, h1 (by decide), h4⟩
